import Mathlib

/-!
Verification development for the relay ingest core: a shallow embedding of the
quota key computation and rate limiter front end (relay-quotas/src/redis.rs),
the project state checks and project cache update (relay-server/src/actors/project.rs),
and the publisher topic selection, chunking and session aggregation
(relay-server/src/actors/store.rs).

Machine integers (u64/usize) are modelled as Nat; the embedded theorems carry
the hypotheses (positivity, no-underflow) under which the Rust arithmetic
agrees with Nat arithmetic. Byte payloads are lists of Nat.
-/

set_option maxHeartbeats 1000000

namespace Relay

/-! ## Quota data model (relay-quotas) -/

/-- Data categories of envelope items (spec section 4.4). -/
inductive DataCategory where
  | error
  | transaction
  | security
  | attachment
  | session
  | profile
  | replayEvent
  | replayRecording
  | metricBucket
  | userReport
deriving DecidableEq

/-- The scope at which a quota applies (spec section 3). -/
inductive QuotaScope where
  | organization
  | project
  | key
deriving DecidableEq

/-- Scoping of a request: organization, project, project key and key id. -/
structure Scoping where
  organizationId : Nat
  projectId : Nat
  projectKey : String
  keyId : Option Nat
deriving DecidableEq

/-- Scoping of a single item: the data category plus the request scoping. -/
structure ItemScoping where
  category : DataCategory
  scoping : Scoping
deriving DecidableEq

/-- Modelled from the spec: `ItemScoping::scope_id` lives in
relay-quotas/src/quota.rs, which is not under src/. Per spec section 4.2 the
subscope is the scope-id value of the scoped entity: the organization id,
project id, or key id rendered as a decimal string (absent when no key id is
known). -/
def ItemScoping.scopeId (s : ItemScoping) : QuotaScope → Option String
  | QuotaScope.organization => some (toString s.scoping.organizationId)
  | QuotaScope.project => some (toString s.scoping.projectId)
  | QuotaScope.key => s.scoping.keyId.map toString

/-- A quota as configured for a project (spec section 3). -/
structure Quota where
  id : Option String
  categories : List DataCategory
  scope : QuotaScope
  scopeId : Option String
  limit : Option Nat
  window : Option Nat
  reasonCode : Option String
deriving DecidableEq

/-- Modelled from the spec: `Quota::matches` lives in
relay-quotas/src/quota.rs, which is not under src/. Per spec sections 3 and
4.3 a quota applies to an item when its scope matches the item scoping (a
quota without a scope id applies to every entity of its scope; with a scope
id it applies when that id equals the scoped identifier of the item) and its
categories contain the item category (an empty category set matches all). -/
def Quota.matches (q : Quota) (s : ItemScoping) : Bool :=
  (match q.scopeId with
   | none => true
   | some sid =>
     match q.scope with
     | QuotaScope.organization => sid == toString s.scoping.organizationId
     | QuotaScope.project => sid == toString s.scoping.projectId
     | QuotaScope.key =>
       match s.scoping.keyId with
       | some kid => sid == toString kid
       | none => false)
  && (q.categories.isEmpty || q.categories.contains s.category)

/-! ## Redis quota keys and the rate limiter front end (redis.rs) -/

/-- The grace period accommodating clock drift in TTL calculation (redis.rs). -/
def GRACE : Nat := 60

/-- Modelled from the spec: `REJECT_ALL_SECS` is defined at the relay-quotas
crate root, which is not under src/; the spec only calls it a large constant
used as the retry-after of zero-limit rejections. Its exact value is
irrelevant to the claims; only the same constant is compared on both sides. -/
def REJECT_ALL_SECS : Nat := 60

/-- The refund counter key derived from a counter key (redis.rs). -/
def getRefundedQuotaKey (counterKey : String) : String :=
  "r:" ++ counterKey

/-- Display of an optional string: the value for some, empty for none
(the OptionalDisplay wrapper in redis.rs). -/
def optionalDisplay : Option String → String
  | some s => s
  | none => ""

/-- Reference to information required for tracking quotas in Redis
(struct RedisQuota in redis.rs). `keyPrefix` renders the source field named
after the quota id; that source name is a reserved word here. -/
structure RedisQuota where
  quota : Quota
  scoping : ItemScoping
  keyPrefix : String
  window : Nat
  timestamp : Nat

/-- RedisQuota::new: present only when both the quota id and window exist. -/
def RedisQuota.new (quota : Quota) (scoping : ItemScoping) (timestamp : Nat) :
    Option RedisQuota :=
  match quota.id, quota.window with
  | some kp, some w => some ⟨quota, scoping, kp, w, timestamp⟩
  | _, _ => none

/-- RedisQuota::limit: -1 encodes an unlimited quota. -/
def RedisQuota.limit (rq : RedisQuota) : Int :=
  match rq.quota.limit with
  | some l => Int.ofNat l
  | none => -1

/-- RedisQuota::shift, the per-organization slot offset. -/
def RedisQuota.shift (rq : RedisQuota) : Nat :=
  rq.scoping.scoping.organizationId % rq.window

/-- RedisQuota::slot. In Rust this is u64 arithmetic; the embedding is
faithful on inputs where the subtraction does not underflow. -/
def RedisQuota.slot (rq : RedisQuota) : Nat :=
  (rq.timestamp - rq.shift) / rq.window

/-- RedisQuota::expiry, the unix timestamp at which the current slot ends. -/
def RedisQuota.expiry (rq : RedisQuota) : Nat :=
  (rq.slot + 1) * rq.window + rq.shift

/-- RedisQuota::key. The subscope id is only formatted into the key if the
quota is not organization-scoped; the organization id is always included. -/
def RedisQuota.key (rq : RedisQuota) : String :=
  let subscope :=
    match rq.quota.scope with
    | QuotaScope.organization => none
    | scope => rq.scoping.scopeId scope
  "quota:" ++ rq.keyPrefix ++ "\x7b" ++ toString rq.scoping.scoping.organizationId ++
    "\x7d" ++ optionalDisplay subscope ++ ":" ++ toString rq.slot

/-- Modelled from the spec: `RateLimitScope` lives in
relay-quotas/src/rate_limit.rs, which is not under src/. Per spec section 3 a
rate limit scope pairs the scope kind with the scoped identifier. -/
inductive RateLimitScope where
  | organization (id : Nat)
  | project (id : Nat)
  | key (projectKey : String)
deriving DecidableEq

/-- Scope of a rate limit derived from a quota scope and the item scoping. -/
def RateLimitScope.forQuota (sc : Scoping) : QuotaScope → RateLimitScope
  | QuotaScope.organization => RateLimitScope.organization sc.organizationId
  | QuotaScope.project => RateLimitScope.project sc.projectId
  | QuotaScope.key => RateLimitScope.key sc.projectKey

/-- Modelled from the spec: `RateLimit` lives in
relay-quotas/src/rate_limit.rs, which is not under src/ (spec section 3).
Retry-after instants are represented by the remaining duration in seconds at
creation time, so a limit is active exactly when the duration is positive. -/
structure RateLimit where
  categories : List DataCategory
  scope : RateLimitScope
  reasonCode : Option String
  retryAfter : Nat
deriving DecidableEq

/-- RateLimit::from_quota: categories, scope and reason code are taken from
the quota; the retry-after is supplied by the caller. -/
def RateLimit.fromQuota (q : Quota) (s : ItemScoping) (retryAfter : Nat) : RateLimit :=
  { categories := q.categories
    scope := RateLimitScope.forQuota s.scoping q.scope
    reasonCode := q.reasonCode
    retryAfter := retryAfter }

/-- Modelled from the spec: `RateLimits` lives in
relay-quotas/src/rate_limit.rs, which is not under src/ (spec sections 3 and
4.3): a set of rate limits with merge-or-insert by (categories, scope)
equivalence, merging retaining the later retry-after. -/
structure RateLimits where
  entries : List RateLimit
deriving DecidableEq

/-- RateLimits::add, merge-or-insert by (categories, scope) equivalence. -/
def RateLimits.add (rls : RateLimits) (rl : RateLimit) : RateLimits :=
  if rls.entries.any (fun r => r.categories == rl.categories && r.scope == rl.scope) then
    ⟨rls.entries.map (fun r =>
      if r.categories == rl.categories && r.scope == rl.scope then
        (if r.retryAfter < rl.retryAfter then { r with retryAfter := rl.retryAfter } else r)
      else r)⟩
  else
    ⟨rls.entries ++ [rl]⟩

/-- RateLimits::is_limited: some entry has a retry-after still in the
future, i.e. a positive remaining duration. -/
def RateLimits.isLimited (rls : RateLimits) : Bool :=
  rls.entries.any (fun r => 0 < r.retryAfter)

/-- The Redis rate limiter configuration: only the optional bound on
returned retry-after values matters for the embedded logic. -/
structure RedisRateLimiter where
  maxLimit : Option Nat
deriving DecidableEq

/-- RedisRateLimiter::retry_after, bounded by max_limit when set. -/
def RedisRateLimiter.retryAfter (l : RedisRateLimiter) (seconds : Nat) : Nat :=
  match l.maxLimit with
  | some m => min seconds m
  | none => seconds

/-- One batch entry of the Redis script invocation: the two keys and four
arguments pushed per tracked quota in is_rate_limited. -/
structure ScriptEntry where
  key : String
  refundKey : String
  limit : Int
  expiry : Nat
  quantity : Nat
  overAcceptOnce : Bool
deriving DecidableEq

/-- Result of is_rate_limited: the rate limits, whether the Redis script was
invoked, and the entries sent to it (empty when it was not invoked). -/
structure IsRateLimitedResult where
  rateLimits : RateLimits
  scriptInvoked : Bool
  scriptEntries : List ScriptEntry
deriving DecidableEq

/-- The quota loop of RedisRateLimiter::is_rate_limited: silently skip
quotas that do not apply, synthesize a local rejection for zero-limit quotas,
and collect the remaining trackable quotas for the script invocation. -/
def isRateLimitedLoop (limiter : RedisRateLimiter) (sc : ItemScoping) (timestamp : Nat)
    (acc : RateLimits × List RedisQuota) : List Quota → RateLimits × List RedisQuota
  | [] => acc
  | quota :: rest =>
    isRateLimitedLoop limiter sc timestamp
      (if ¬ quota.matches sc then
        acc
      else if quota.limit = some 0 then
        (acc.1.add (RateLimit.fromQuota quota sc (limiter.retryAfter REJECT_ALL_SECS)), acc.2)
      else
        match RedisQuota.new quota sc timestamp with
        | some rq => (acc.1, acc.2 ++ [rq])
        | none => acc)
      rest

/-- RedisRateLimiter::is_rate_limited. The Redis side is external: the
script reply is passed in as the vector of per-quota rejection booleans, and
the result records whether the script was invoked at all together with the
entries that were sent to it. When no quota is tracked or a zero-limit quota
already produced a rejection, the function returns early without invoking
the script. -/
def RedisRateLimiter.isRateLimited (limiter : RedisRateLimiter) (quotas : List Quota)
    (itemScoping : ItemScoping) (quantity : Nat) (overAcceptOnce : Bool)
    (timestamp : Nat) (rejections : List Bool) : IsRateLimitedResult :=
  let r := isRateLimitedLoop limiter itemScoping timestamp (⟨[]⟩, []) quotas
  if r.2.isEmpty || r.1.isLimited then
    ⟨r.1, false, []⟩
  else
    ⟨(r.2.zip rejections).foldl
      (fun rls p =>
        if p.2 then
          rls.add (RateLimit.fromQuota p.1.quota itemScoping
            (limiter.retryAfter (p.1.expiry - timestamp)))
        else rls)
      r.1,
     true,
     r.2.map (fun rq =>
       ⟨rq.key, getRefundedQuotaKey rq.key, rq.limit, rq.expiry + GRACE,
        quantity, overAcceptOnce⟩)⟩

/-- Soundness of the rate limits accumulated by the quota loop before the
script runs: every entry carries the zero-limit retry-after and the reason
code of some matching zero-limit quota of the list. -/
def ZeroQuotaSound (quotasAll : List Quota) (sc : ItemScoping) (rls : RateLimits) : Prop :=
  ∀ r ∈ rls.entries, r.retryAfter = REJECT_ALL_SECS ∧
    ∃ q ∈ quotasAll, q.matches sc = true ∧ q.limit = some 0 ∧ q.reasonCode = r.reasonCode

/-! ## Project state and project cache (project.rs) -/

/-- The expiry status of a project state (enum Expiry in project.rs). -/
inductive Expiry where
  | updated
  | stale
  | expired
deriving DecidableEq

/-- Reasons for discarding a request (the subset of DiscardReason produced
by the checks embedded here). -/
inductive DiscardReason where
  | projectId
  | projectState
  | cors
deriving DecidableEq

/-- The slice of the Relay configuration read by the embedded functions.
Durations are in seconds. -/
structure Config where
  cacheMissExpiry : Nat
  projectCacheExpiry : Nat
  projectGracePeriod : Nat
  overrideProjectIds : Bool
deriving DecidableEq

/-- A public key entry of a project state (struct PublicKeyConfig). -/
structure PublicKeyConfig where
  publicKey : String
  numericId : Option Nat
deriving DecidableEq

/-- The slice of ProjectConfig read by the embedded functions. -/
structure ProjectConfig where
  allowedDomains : List String
  quotas : List Quota
deriving DecidableEq

/-- The cached server state of a project (struct ProjectState). `lastFetch`
is the instant of the fetch in seconds; functions that read the clock take
the current instant `now` explicitly. -/
structure ProjectState where
  projectId : Option Nat
  disabled : Bool
  publicKeys : List PublicKeyConfig
  config : ProjectConfig
  organizationId : Option Nat
  lastFetch : Nat
  invalid : Bool
deriving DecidableEq

/-- ProjectState::get_public_key_config: the first (only) public key. -/
def ProjectState.getPublicKeyConfig (st : ProjectState) : Option PublicKeyConfig :=
  st.publicKeys.head?

/-- ProjectState::check_expiry: compare the elapsed time since the fetch
against the configured expiry and grace period. -/
def ProjectState.checkExpiry (st : ProjectState) (config : Config) (now : Nat) : Expiry :=
  let expiry :=
    match st.projectId with
    | none => config.cacheMissExpiry
    | some _ => config.projectCacheExpiry
  let elapsed := now - st.lastFetch
  if expiry + config.projectGracePeriod ≤ elapsed then Expiry.expired
  else if expiry ≤ elapsed then Expiry.stale
  else Expiry.updated

/-- ProjectState::is_valid_project_id: only a loaded state with a stated id
and no override flag can fail. -/
def ProjectState.isValidProjectId (st : ProjectState) (statedId : Option Nat)
    (config : Config) : Bool :=
  match st.projectId, statedId, config.overrideProjectIds with
  | some actualId, some stated, false => actualId == stated
  | _, _, _ => true

/-- Modelled from the spec: `matches_any_origin` lives in relay-filter,
which is not under src/. Per spec section 4.5 an origin matches when any
pattern in the allowed domains glob-matches it; a star matches any sequence
of characters. -/
def globMatch : List Char → List Char → Bool
  | [], [] => true
  | [], _ :: _ => false
  | p :: ps, s =>
    if p = Char.ofNat 42 then
      globMatch ps s ||
        (match s with
         | [] => false
         | _ :: s1 => globMatch (p :: ps) s1)
    else
      match s with
      | [] => false
      | c :: s1 => p == c && globMatch ps s1
termination_by p s => (p.length, s.length)

/-- Modelled from the spec: origin matching over the allowed domain list. -/
def matchesAnyOrigin (origin : String) (allowed : List String) : Bool :=
  allowed.any (fun pat => globMatch pat.toList origin.toList)

/-- ProjectState::is_valid_origin: accept requests without an origin; with
an empty allow list always reject; otherwise glob-match. -/
def ProjectState.isValidOrigin (st : ProjectState) (origin : Option String) : Bool :=
  match origin with
  | none => true
  | some o =>
    if st.config.allowedDomains.isEmpty then false
    else matchesAnyOrigin o st.config.allowedDomains

/-- ProjectState::is_matching_key: validate against the loaded key config;
states without one are tolerated only when no project id is loaded. -/
def ProjectState.isMatchingKey (st : ProjectState) (projectKey : String) : Bool :=
  match st.getPublicKeyConfig with
  | some keyConfig => keyConfig.publicKey == projectKey
  | none => st.projectId.isNone

/-- ProjectState::check_disabled: an expired state always passes; otherwise
the invalid flag is checked before the disabled flag. -/
def ProjectState.checkDisabled (st : ProjectState) (config : Config) (now : Nat) :
    Except DiscardReason Unit :=
  if st.checkExpiry config now = Expiry.expired then Except.ok ()
  else if st.invalid then Except.error DiscardReason.projectState
  else if st.disabled then Except.error DiscardReason.projectId
  else Except.ok ()

/-- The slice of RequestMeta read by the embedded checks. -/
structure RequestMeta where
  projectId : Option Nat
  origin : Option String
  publicKey : String
  noCache : Bool
deriving DecidableEq

/-- ProjectState::check_request: project id, origin and public key checks,
then check_disabled. -/
def ProjectState.checkRequest (st : ProjectState) (meta : RequestMeta) (config : Config)
    (now : Nat) : Except DiscardReason Unit :=
  if ¬ st.isValidProjectId meta.projectId config then Except.error DiscardReason.projectId
  else if ¬ st.isValidOrigin meta.origin then Except.error DiscardReason.cors
  else if ¬ st.isMatchingKey meta.publicKey then Except.error DiscardReason.projectId
  else st.checkDisabled config now

/-- First-failure semantics over an ordered list of checks: each check pairs
a failure condition with the discard reason it produces. -/
def firstFailingCheck : List (Bool × DiscardReason) → Except DiscardReason Unit
  | [] => Except.ok ()
  | (failed, reason) :: rest =>
    if failed then Except.error reason else firstFailingCheck rest

/-- The check sequence exactly as the examined claim states it: project id,
origin, public key, then the disabled check and then the invalid check, the
reason of the first failing check being returned. -/
def checkRequestClaimed (st : ProjectState) (meta : RequestMeta) (config : Config) :
    Except DiscardReason Unit :=
  firstFailingCheck
    [(!(st.isValidProjectId meta.projectId config), DiscardReason.projectId),
     (!(st.isValidOrigin meta.origin), DiscardReason.cors),
     (!(st.isMatchingKey meta.publicKey), DiscardReason.projectId),
     (st.disabled, DiscardReason.projectId),
     (st.invalid, DiscardReason.projectState)]

/-- The in-flight fetch channel of a project (struct StateChannel); the
broadcast inner channel is external, only the no-cache flag is state. -/
structure StateChannel where
  noCache : Bool
deriving DecidableEq

/-- The per-key project cache entry (struct Project). Envelopes and pending
sampling messages are opaque and represented by identifiers. -/
structure Project where
  projectKey : String
  config : Config
  state : Option ProjectState
  stateChannel : Option StateChannel
  pendingValidations : List Nat
  pendingSampling : List Nat
deriving DecidableEq

/-- The expiry status together with the state when usable
(enum ExpiryState in project.rs). -/
inductive ExpiryState where
  | updated (st : ProjectState)
  | stale (st : ProjectState)
  | expired
deriving DecidableEq

/-- Project::expiry_state: classify the held state; a missing state counts
as expired. -/
def Project.expiryState (p : Project) (now : Nat) : ExpiryState :=
  match p.state with
  | some st =>
    match st.checkExpiry p.config now with
    | Expiry.updated => ExpiryState.updated st
    | Expiry.stale => ExpiryState.stale st
    | Expiry.expired => ExpiryState.expired
  | none => ExpiryState.expired

/-- Observable outcome of Project::update_state: the project afterwards, the
state broadcast to the channel subscribers (none when the update returned
early), and the drained pending queues paired with the state they were
flushed with. -/
structure UpdateStateResult where
  project : Project
  broadcast : Option ProjectState
  flushedValidations : List (Nat × ProjectState)
  flushedSampling : List Nat
deriving DecidableEq

/-- Project::update_state: without a channel the update is dropped; a
non-no-cache update against a no-cache channel puts the channel back; if the
new state is invalid but the held one is still usable the held one is kept,
and the kept (or new) state is used to flush both pending queues and is sent
to the channel. -/
def Project.updateState (p : Project) (newState : ProjectState) (noCache : Bool)
    (now : Nat) : UpdateStateResult :=
  match p.stateChannel with
  | none => ⟨p, none, [], []⟩
  | some channel =>
    if channel.noCache && !noCache then
      ⟨p, none, [], []⟩
    else
      let kept : Option ProjectState :=
        match p.expiryState now with
        | ExpiryState.updated old => if newState.invalid then some old else none
        | ExpiryState.stale old => if newState.invalid then some old else none
        | ExpiryState.expired => none
      let sent := kept.getD newState
      let newHeld :=
        match kept with
        | some _ => p.state
        | none => some newState
      ⟨{ p with
          state := newHeld
          stateChannel := none
          pendingValidations := []
          pendingSampling := [] },
       some sent,
       p.pendingValidations.map (fun e => (e, sent)),
       p.pendingSampling⟩

/-! ## Publisher: topic selection, chunking, session aggregation (store.rs) -/

/-- Envelope item types (enum ItemType); the types the publisher does not
inspect are collapsed into `other`. -/
inductive ItemType where
  | event
  | transaction
  | security
  | attachment
  | userReport
  | session
  | sessions
  | metricBuckets
  | profile
  | replayEvent
  | replayRecording
  | other
deriving DecidableEq

/-- The slice of an envelope item read by the publisher. -/
structure Item where
  ty : ItemType
  payload : List Nat
  filename : Option String
  rateLimited : Bool
deriving DecidableEq

/-- Item::len, the payload length in bytes. -/
def Item.len (i : Item) : Nat :=
  i.payload.length

/-- An envelope as the publisher sees it: its ordered items. -/
structure Envelope where
  items : List Item
deriving DecidableEq

/-- Envelope::get_item_by: the first item satisfying the predicate. -/
def Envelope.getItemBy (e : Envelope) (p : Item → Bool) : Option Item :=
  e.items.find? p

/-- is_slow_item (store.rs): attachments and user reports. -/
def isSlowItem (i : Item) : Bool :=
  i.ty == ItemType.attachment || i.ty == ItemType.userReport

/-- The predicate selecting the event item in handle_store_envelope. -/
def eventItemPred (i : Item) : Bool :=
  i.ty == ItemType.event || i.ty == ItemType.transaction || i.ty == ItemType.security

/-- Kafka topics used by the publisher. -/
inductive KafkaTopic where
  | events
  | transactions
  | attachments
  | sessions
  | metricsTransactions
  | metricsSessions
  | profiles
  | replayEvents
  | replayRecordings
deriving DecidableEq

/-- The topic selection of handle_store_envelope: a slow item routes the
envelope to the attachments topic, otherwise a transaction event item
routes it to the transactions topic, otherwise to the events topic. -/
def selectTopic (e : Envelope) : KafkaTopic :=
  let eventItem := e.getItemBy eventItemPred
  if (e.getItemBy isSlowItem).isSome then KafkaTopic.attachments
  else if eventItem.map Item.ty = some ItemType.transaction then KafkaTopic.transactions
  else KafkaTopic.events

/-- The slow-item predicate as the examined claim states it: attachments,
user reports and replay recordings. -/
def isSlowItemClaimed (i : Item) : Bool :=
  i.ty == ItemType.attachment || i.ty == ItemType.userReport ||
    i.ty == ItemType.replayRecording

/-- The topic selection as the examined claim states it, differing from
selectTopic only in the slow-item predicate. -/
def selectTopicClaimed (e : Envelope) : KafkaTopic :=
  let eventItem := e.getItemBy eventItemPred
  if (e.getItemBy isSlowItemClaimed).isSome then KafkaTopic.attachments
  else if eventItem.map Item.ty = some ItemType.transaction then KafkaTopic.transactions
  else KafkaTopic.events

/-- One chunk message as published by produce_attachment_chunks or
produce_replay_recording_chunks: the chunk index and the payload slice. -/
structure ChunkMessage where
  chunkIndex : Nat
  payloadChunk : List Nat
deriving DecidableEq

/-- The chunking loop shared by produce_attachment_chunks and
produce_replay_recording_chunks: while the offset has not reached the
payload size, emit a slice of at most maxChunkSize bytes and advance. The
Rust loop is a while loop; it is embedded with a fuel argument, and every
theorem below supplies fuel equal to the payload size, which bounds the
iteration count whenever maxChunkSize is positive (with maxChunkSize zero
the Rust loop would not terminate). Returns the messages and the final
chunk index, which the source uses as the chunk count. -/
def chunkLoop (maxChunkSize : Nat) (payload : List Nat) :
    Nat → Nat → Nat → List ChunkMessage × Nat
  | 0, _, chunkIndex => ([], chunkIndex)
  | fuel + 1, offset, chunkIndex =>
    if offset < payload.length then
      let chunkSize := min maxChunkSize (payload.length - offset)
      let rest := chunkLoop maxChunkSize payload fuel (offset + chunkSize) (chunkIndex + 1)
      (⟨chunkIndex, (payload.take (offset + chunkSize)).drop offset⟩ :: rest.1, rest.2)
    else ([], chunkIndex)

/-- Fallback name for attachment items without a filename (store.rs). -/
def UNNAMED_ATTACHMENT : String :=
  "Unnamed Attachment"

/-- The summary returned by produce_attachment_chunks (struct
ChunkedAttachment; the random id string is external and omitted). -/
structure ChunkedAttachment where
  name : String
  chunks : Nat
  size : Option Nat
  rateLimited : Option Bool
deriving DecidableEq

/-- StoreService::produce_attachment_chunks: publish the chunk messages of
the payload and return the summary. The attachment chunk size comes from
the configuration and is passed explicitly. -/
def produceAttachmentChunks (attachmentChunkSize : Nat) (item : Item) :
    List ChunkMessage × ChunkedAttachment :=
  let size := item.len
  let r := chunkLoop attachmentChunkSize item.payload size 0 0
  (r.1,
   { name :=
       match item.filename with
       | some n => n
       | none => UNNAMED_ATTACHMENT
     chunks := r.2
     size := some size
     rateLimited := some item.rateLimited })

/-- The fixed chunk bound of produce_replay_recording_chunks: a 1 MB
message, 2000 bytes of which are reserved for metadata. -/
def REPLAY_MAX_CHUNK_SIZE : Nat :=
  1000 * 1000 - 2000

/-- The summary returned by produce_replay_recording_chunks (struct
ReplayRecordingChunkMeta; the random id string is external and omitted). -/
structure ReplayRecordingChunkMeta where
  chunks : Nat
  size : Option Nat
deriving DecidableEq

/-- StoreService::produce_replay_recording_chunks: identical loop with the
fixed replay chunk bound. -/
def produceReplayRecordingChunks (item : Item) :
    List ChunkMessage × ReplayRecordingChunkMeta :=
  let size := item.len
  let r := chunkLoop REPLAY_MAX_CHUNK_SIZE item.payload size 0 0
  (r.1, { chunks := r.2, size := some size })

/-- Session statuses emitted for aggregate entries (enum SessionStatus). -/
inductive SessionStatus where
  | exited
  | errored
  | abnormal
  | crashed
deriving DecidableEq

/-- One entry of a session-aggregates item (struct SessionAggregateItem):
the started timestamp, the optional distinct id, and the per-status counts. -/
structure SessionAggregateItem where
  started : Nat
  distinctId : Option String
  exited : Nat
  errored : Nat
  abnormal : Nat
  crashed : Nat
deriving DecidableEq

/-- The varying fields of a SessionKafkaMessage produced from an aggregate
entry; the constant header fields (org, project, retention, release and so
on) are identical across messages and omitted. The distinct id is kept as
the raw value; its v5-UUID hashing is external. -/
structure SessionKafkaMessage where
  started : Nat
  distinctId : Option String
  status : SessionStatus
  errors : Nat
  quantity : Nat
deriving DecidableEq

/-- The maximum number of aggregate entries exploded per aggregate item
(MAX_EXPLODED_SESSIONS in store.rs). -/
def MAX_EXPLODED_SESSIONS : Nat := 100

/-- The four conditional sends of the aggregate loop body in
produce_sessions_from_aggregate: one message per status with a positive
count. -/
def explodeAggregateItem (item : SessionAggregateItem) : List SessionKafkaMessage :=
  (if 0 < item.exited then
    [⟨item.started, item.distinctId, SessionStatus.exited, 0, item.exited⟩] else []) ++
  (if 0 < item.errored then
    [⟨item.started, item.distinctId, SessionStatus.errored, 1, item.errored⟩] else []) ++
  (if 0 < item.abnormal then
    [⟨item.started, item.distinctId, SessionStatus.abnormal, 1, item.abnormal⟩] else []) ++
  (if 0 < item.crashed then
    [⟨item.started, item.distinctId, SessionStatus.crashed, 1, item.crashed⟩] else [])

/-- StoreService::produce_sessions_from_aggregate: explode the first
MAX_EXPLODED_SESSIONS aggregate entries into per-status messages; entries
beyond that bound are dropped (with a warning in the source). -/
def produceSessionsFromAggregate (aggregates : List SessionAggregateItem) :
    List SessionKafkaMessage :=
  ((aggregates.take MAX_EXPLODED_SESSIONS).map explodeAggregateItem).flatten

/-! ## Concrete instances used by witnesses and counterexamples -/

/-- The scoped-key scenario quota from the source test suite: id foo,
project scope, scope id 42, window 2, limit 0. -/
def fooQuota : Quota :=
  { id := some ("foo")
    categories := []
    scope := QuotaScope.project
    scopeId := some ("42")
    limit := some 0
    window := some 2
    reasonCode := none }

/-- The scoped-key scenario scoping: organization 69420, project 42. -/
def fooScoping : Scoping :=
  { organizationId := 69420
    projectId := 42
    projectKey := "a94ae32be2584e0bbd7a4cbb95971fee"
    keyId := some 4711 }

/-- The scoped-key scenario item scoping. -/
def fooItemScoping : ItemScoping :=
  ⟨DataCategory.error, fooScoping⟩

/-- The tracked form of the scoped-key scenario quota at timestamp
123123123. -/
def fooRedisQuota : RedisQuota :=
  ⟨fooQuota, fooItemScoping, "foo", 2, 123123123⟩

/-- The zero-limit quota of the zero-size-quotas source test. -/
def zeroQuota : Quota :=
  { id := none
    categories := []
    scope := QuotaScope.organization
    scopeId := none
    limit := some 0
    window := none
    reasonCode := some ("get_lost") }

/-- The unlimited-but-counted quota of the zero-size-quotas source test. -/
def unlimitedQuota : Quota :=
  { id := some ("42")
    categories := []
    scope := QuotaScope.organization
    scopeId := none
    limit := none
    window := some 42
    reasonCode := some ("unlimited") }

/-- The quota list of the zero-size-quotas source test. -/
def zeroTestQuotas : List Quota :=
  [zeroQuota, unlimitedQuota]

/-- The item scoping of the zero-size-quotas source test. -/
def zeroTestScoping : ItemScoping :=
  ⟨DataCategory.error,
   { organizationId := 42
     projectId := 43
     projectKey := "a94ae32be2584e0bbd7a4cbb95971fee"
     keyId := some 44 }⟩

/-- A configuration with 100 second expiries and a 10 second grace period. -/
def witnessConfig : Config :=
  { cacheMissExpiry := 100
    projectCacheExpiry := 100
    projectGracePeriod := 10
    overrideProjectIds := false }

/-- A freshly fetched state that is both invalid and disabled: the input on
which the order of the invalid and disabled checks is observable. -/
def invalidDisabledState : ProjectState :=
  { projectId := none
    disabled := true
    publicKeys := []
    config := { allowedDomains := [], quotas := [] }
    organizationId := none
    lastFetch := 0
    invalid := true }

/-- A request without origin and without a stated project id. -/
def plainMeta : RequestMeta :=
  { projectId := none
    origin := none
    publicKey := "k"
    noCache := false }

/-- A valid, freshly fetched project state. -/
def oldFreshState : ProjectState :=
  { projectId := some 1
    disabled := false
    publicKeys := [{ publicKey := "pk", numericId := some 7 }]
    config := { allowedDomains := [], quotas := [] }
    organizationId := some 5
    lastFetch := 0
    invalid := false }

/-- An invalid state as produced for an unparsable fetch response. -/
def invalidNewState : ProjectState :=
  { projectId := none
    disabled := true
    publicKeys := []
    config := { allowedDomains := [], quotas := [] }
    organizationId := none
    lastFetch := 0
    invalid := true }

/-- A project holding a fresh state, an in-flight fetch channel and pending
envelopes. -/
def projWithChannel : Project :=
  { projectKey := "pk"
    config := witnessConfig
    state := some oldFreshState
    stateChannel := some { noCache := false }
    pendingValidations := [10, 11]
    pendingSampling := [20] }

/-- A project with no fetch channel, no state and pending envelopes. -/
def projNoChannel : Project :=
  { projectKey := "pk"
    config := witnessConfig
    state := none
    stateChannel := none
    pendingValidations := [10, 11]
    pendingSampling := [20] }

/-- An envelope containing a single replay recording item. -/
def replayOnlyEnvelope : Envelope :=
  { items := [{ ty := ItemType.replayRecording, payload := [], filename := none,
                rateLimited := false }] }

/-- An aggregate entry with all four per-status counts positive. -/
def fullAggregateItem : SessionAggregateItem :=
  { started := 0
    distinctId := none
    exited := 1
    errored := 1
    abnormal := 1
    crashed := 1 }

/-- A replay recording item with a two byte payload. -/
def replayItemTwoBytes : Item :=
  { ty := ItemType.replayRecording
    payload := [0, 0]
    filename := none
    rateLimited := false }

/-- The chunk payload lengths of a list of chunk messages. -/
def chunkLengths (l : List ChunkMessage) : List Nat :=
  l.map (fun m => m.payloadChunk.length)

/-- An attachment item with a seven byte payload. -/
def attachmentItemSeven : Item :=
  { ty := ItemType.attachment
    payload := [1, 2, 3, 4, 5, 6, 7]
    filename := some ("dump.bin")
    rateLimited := false }

/-- An attachment item with an empty payload. -/
def emptyAttachmentItem : Item :=
  { ty := ItemType.attachment
    payload := []
    filename := none
    rateLimited := false }

/-- A replay recording item with an empty payload. -/
def emptyReplayItem : Item :=
  { ty := ItemType.replayRecording
    payload := []
    filename := none
    rateLimited := false }

/-! ## Theorems -/

/-- C1: for every trackable quota with id Q and window W, item scoping with
organization id O, and timestamp t at which the slot subtraction does not
underflow, RedisQuota::key is exactly the string "quota:Q{O}S:" followed by
the slot (t - O mod W) / W, where S is the scope-id value for project- and
key-scoped quotas and empty for organization-scoped quotas. -/
theorem claim_C1_redis_quota_key (q : Quota) (sc : Scoping) (cat : DataCategory)
    (t W : Nat) (Q : String) (hid : q.id = some Q) (hw : q.window = some W)
    (hW : 0 < W) (hts : sc.organizationId % W ≤ t) (rq : RedisQuota)
    (hrq : RedisQuota.new q ⟨cat, sc⟩ t = some rq) :
    rq.key = "quota:" ++ Q ++ "\x7b" ++ toString sc.organizationId ++ "\x7d" ++
      (match q.scope with
       | QuotaScope.organization => ""
       | QuotaScope.project => toString sc.projectId
       | QuotaScope.key => (sc.keyId.map toString).getD ("")) ++
      ":" ++ toString ((t - sc.organizationId % W) / W) := by
  unfold RedisQuota.new at hrq
  rw [hid, hw] at hrq
  injection hrq with hrq
  subst hrq
  cases hsc : q.scope
  · simp [RedisQuota.key, RedisQuota.slot, RedisQuota.shift, hsc, ItemScoping.scopeId,
      optionalDisplay]
  · simp [RedisQuota.key, RedisQuota.slot, RedisQuota.shift, hsc, ItemScoping.scopeId,
      optionalDisplay]
  · cases hk : sc.keyId
    · simp [RedisQuota.key, RedisQuota.slot, RedisQuota.shift, hsc, hk,
        ItemScoping.scopeId, optionalDisplay]
    · simp [RedisQuota.key, RedisQuota.slot, RedisQuota.shift, hsc, hk,
        ItemScoping.scopeId, optionalDisplay]

/-- Witness for C1 at the scoped-key scenario of the source tests. -/
theorem claim_C1_redis_quota_key_witness :
    RedisQuota.new fooQuota fooItemScoping 123123123 = some fooRedisQuota ∧
    fooRedisQuota.key = "quota:foo\x7b69420\x7d42:61561561" := by
  constructor
  · rfl
  · have h := claim_C1_redis_quota_key fooQuota fooScoping DataCategory.error
      123123123 2 ("foo") rfl rfl (by decide) (by decide) fooRedisQuota rfl
    rw [h]
    rfl

/-- C4: a state whose expiry is Expired passes check_disabled even when its
disabled or invalid flag is set, and check_request never rejects such a
state for being invalid. -/
theorem claim_C4_expired_state_not_rejected (st : ProjectState) (config : Config)
    (now : Nat) (h : st.checkExpiry config now = Expiry.expired) :
    st.checkDisabled config now = Except.ok () ∧
    ∀ meta : RequestMeta,
      st.checkRequest meta config now ≠ Except.error DiscardReason.projectState := by
  constructor
  · unfold ProjectState.checkDisabled
    rw [h]
    simp
  · intro meta
    unfold ProjectState.checkRequest
    split
    · simp
    · split
      · simp
      · split
        · simp
        · unfold ProjectState.checkDisabled
          rw [h]
          simp

/-- Witness for C4: an expired state with both flags set. -/
theorem claim_C4_expired_state_not_rejected_witness :
    ProjectState.checkExpiry invalidDisabledState witnessConfig 1000 = Expiry.expired ∧
    ProjectState.checkDisabled invalidDisabledState witnessConfig 1000 = Except.ok () ∧
    ProjectState.checkRequest invalidDisabledState plainMeta witnessConfig 1000 ≠
      Except.error DiscardReason.projectState := by
  have h := claim_C4_expired_state_not_rejected invalidDisabledState witnessConfig 1000
    (by decide)
  exact ⟨by decide, h.1, h.2 plainMeta⟩

/-- C5: while a usable (updated or stale) state is held, an update with an
invalid new state leaves the held state unchanged, and whenever the pending
envelopes are flushed and the channel notified, it is with the prior state. -/
theorem claim_C5_update_state_keeps_usable_state (p : Project) (old newState : ProjectState)
    (noCache : Bool) (now : Nat) (hold : p.state = some old)
    (hexp : old.checkExpiry p.config now = Expiry.updated ∨
      old.checkExpiry p.config now = Expiry.stale)
    (hinv : newState.invalid = true) :
    (p.updateState newState noCache now).project.state = some old ∧
    ((p.updateState newState noCache now).broadcast = none ∧
      (p.updateState newState noCache now).flushedValidations = [] ∨
     (p.updateState newState noCache now).broadcast = some old ∧
      (p.updateState newState noCache now).flushedValidations =
        p.pendingValidations.map (fun e => (e, old))) := by
  cases hch : p.stateChannel with
  | none => simp [Project.updateState, hch, hold]
  | some channel =>
    by_cases hsup : (channel.noCache && !noCache) = true
    · simp [Project.updateState, hch, hsup, hold]
    · rcases hexp with he | he <;>
        simp [Project.updateState, hch, hsup, Project.expiryState, hold, he, hinv]

/-- Witness for C5: a fresh state kept against an invalid update. -/
theorem claim_C5_update_state_keeps_usable_state_witness :
    (projWithChannel.updateState invalidNewState false 0).project.state =
      some oldFreshState ∧
    ((projWithChannel.updateState invalidNewState false 0).broadcast = none ∧
      (projWithChannel.updateState invalidNewState false 0).flushedValidations = [] ∨
     (projWithChannel.updateState invalidNewState false 0).broadcast =
       some oldFreshState ∧
      (projWithChannel.updateState invalidNewState false 0).flushedValidations =
        projWithChannel.pendingValidations.map (fun e => (e, oldFreshState))) :=
  claim_C5_update_state_keeps_usable_state projWithChannel oldFreshState invalidNewState
    false 0 rfl (Or.inl (by decide)) rfl

/-- C9: without a fetch channel, update_state is a complete no-op: the
project (held state and both pending queues) is unchanged, nothing is
flushed or broadcast, and the new state is discarded. -/
theorem claim_C9_update_state_without_channel (p : Project) (newState : ProjectState)
    (noCache : Bool) (now : Nat) (h : p.stateChannel = none) :
    p.updateState newState noCache now = ⟨p, none, [], []⟩ := by
  unfold Project.updateState
  rw [h]

/-- Witness for C9: a stateless project without a channel discards a valid
fresh state. -/
theorem claim_C9_update_state_without_channel_witness :
    projNoChannel.stateChannel = none ∧
    projNoChannel.updateState oldFreshState false 0 = ⟨projNoChannel, none, [], []⟩ :=
  ⟨rfl, claim_C9_update_state_without_channel projNoChannel oldFreshState false 0 rfl⟩

/-- C10: an empty payload produces no chunk messages and a summary with
chunks = 0 and size = some 0, for attachments and replay recordings alike. -/
theorem claim_C10_empty_payload (attachmentChunkSize : Nat) (item itemR : Item)
    (h : item.payload = []) (hR : itemR.payload = []) :
    (produceAttachmentChunks attachmentChunkSize item).1 = [] ∧
    (produceAttachmentChunks attachmentChunkSize item).2.chunks = 0 ∧
    (produceAttachmentChunks attachmentChunkSize item).2.size = some 0 ∧
    (produceReplayRecordingChunks itemR).1 = [] ∧
    (produceReplayRecordingChunks itemR).2.chunks = 0 ∧
    (produceReplayRecordingChunks itemR).2.size = some 0 := by
  unfold produceAttachmentChunks produceReplayRecordingChunks Item.len
  rw [h, hR]
  simp [chunkLoop]

/-- Membership after RateLimits::add: an entry of the result is either the
added limit itself or stems from an existing entry, keeping its reason code
and taking its retry-after from the old entry or from the added limit. -/
theorem mem_add_entries (rls : RateLimits) (rl r : RateLimit)
    (h : r ∈ (rls.add rl).entries) :
    (∃ r0 ∈ rls.entries, r.reasonCode = r0.reasonCode ∧
      (r.retryAfter = r0.retryAfter ∨ r.retryAfter = rl.retryAfter)) ∨ r = rl := by
  unfold RateLimits.add at h
  split at h
  · simp only [List.mem_map] at h
    obtain ⟨r0, hr0, hfr⟩ := h
    left
    refine ⟨r0, hr0, ?_⟩
    split at hfr
    · split at hfr
      · rw [← hfr]
        exact ⟨rfl, Or.inr rfl⟩
      · rw [← hfr]
        exact ⟨rfl, Or.inl rfl⟩
    · rw [← hfr]
      exact ⟨rfl, Or.inl rfl⟩
  · rw [List.mem_append] at h
    rcases h with h | h
    · exact Or.inl ⟨r, h, rfl, Or.inl rfl⟩
    · simp only [List.mem_singleton] at h
      exact Or.inr h
/-- RateLimits::add never leaves the set empty. -/
theorem add_entries_ne_nil (rls : RateLimits) (rl : RateLimit) :
    (rls.add rl).entries ≠ [] := by
  unfold RateLimits.add
  split
  · rename_i hany
    intro hnil
    rw [List.map_eq_nil_iff] at hnil
    rw [hnil] at hany
    simp at hany
  · simp

/-- Invariant of the quota loop of is_rate_limited: starting from a sound
accumulator, the accumulated rate limits stay sound for the zero-limit
quotas of the list, remain nonempty once nonempty, and become nonempty as
soon as the processed quotas contain a matching zero-limit quota. -/
theorem isRateLimitedLoop_zero_invariant (quotasAll : List Quota) (sc : ItemScoping)
    (timestamp : Nat) :
    ∀ l : List Quota, (∀ q ∈ l, q ∈ quotasAll) →
      ∀ acc : RateLimits × List RedisQuota,
        ZeroQuotaSound quotasAll sc acc.1 →
        ZeroQuotaSound quotasAll sc
          (isRateLimitedLoop ⟨none⟩ sc timestamp acc l).1 ∧
        (acc.1.entries ≠ [] →
          (isRateLimitedLoop ⟨none⟩ sc timestamp acc l).1.entries ≠ []) ∧
        ((∃ q ∈ l, q.matches sc = true ∧ q.limit = some 0) →
          (isRateLimitedLoop ⟨none⟩ sc timestamp acc l).1.entries ≠ []) := by
  intro l
  induction l with
  | nil =>
    intro _ acc hacc
    refine ⟨hacc, fun h => h, fun h => ?_⟩
    simp at h
  | cons q0 rest ih =>
    intro hsub acc hacc
    have hsubRest : ∀ q ∈ rest, q ∈ quotasAll := fun q hq => hsub q (List.mem_cons_of_mem _ hq)
    by_cases hm : q0.matches sc = true
    · by_cases hz : q0.limit = some 0
      · have hq0 : q0 ∈ quotasAll := hsub q0 (List.mem_cons_self _ _)
        have hacc2 : ZeroQuotaSound quotasAll sc
            (acc.1.add (RateLimit.fromQuota q0 sc
              (RedisRateLimiter.retryAfter ⟨none⟩ REJECT_ALL_SECS))) := by
          intro r hr
          rcases mem_add_entries _ _ _ hr with ⟨r0, hr0, hrc, hra⟩ | hreq
          · obtain ⟨hra0, q1, hq1, hq1m, hq1z, hq1rc⟩ := hacc r0 hr0
            refine ⟨?_, q1, hq1, hq1m, hq1z, ?_⟩
            · rcases hra with hra | hra
              · rw [hra, hra0]
              · rw [hra]
                rfl
            · rw [hrc]
              exact hq1rc
          · rw [hreq]
            exact ⟨rfl, q0, hq0, hm, hz, rfl⟩
        have hstep : isRateLimitedLoop ⟨none⟩ sc timestamp acc (q0 :: rest) =
            isRateLimitedLoop ⟨none⟩ sc timestamp
              (acc.1.add (RateLimit.fromQuota q0 sc
                (RedisRateLimiter.retryAfter ⟨none⟩ REJECT_ALL_SECS)), acc.2) rest := by
          simp [isRateLimitedLoop, hm, hz]
        rw [hstep]
        obtain ⟨s1, s2, _⟩ := ih hsubRest
          (acc.1.add (RateLimit.fromQuota q0 sc
            (RedisRateLimiter.retryAfter ⟨none⟩ REJECT_ALL_SECS)), acc.2) hacc2
        exact ⟨s1, fun _ => s2 (add_entries_ne_nil _ _),
          fun _ => s2 (add_entries_ne_nil _ _)⟩
      · have hrestWitness :
            (∃ q ∈ q0 :: rest, q.matches sc = true ∧ q.limit = some 0) →
            (∃ q ∈ rest, q.matches sc = true ∧ q.limit = some 0) := by
          rintro ⟨q1, hq1, hq1m, hq1z⟩
          rcases List.mem_cons.mp hq1 with hq1e | hq1r
          · rw [hq1e] at hq1z
            exact absurd hq1z hz
          · exact ⟨q1, hq1r, hq1m, hq1z⟩
        cases hnew : RedisQuota.new q0 sc timestamp with
        | some rq =>
          have hstep : isRateLimitedLoop ⟨none⟩ sc timestamp acc (q0 :: rest) =
              isRateLimitedLoop ⟨none⟩ sc timestamp (acc.1, acc.2 ++ [rq]) rest := by
            simp [isRateLimitedLoop, hm, hz, hnew]
          rw [hstep]
          obtain ⟨s1, s2, s3⟩ := ih hsubRest (acc.1, acc.2 ++ [rq]) hacc
          exact ⟨s1, s2, fun hw => s3 (hrestWitness hw)⟩
        | none =>
          have hstep : isRateLimitedLoop ⟨none⟩ sc timestamp acc (q0 :: rest) =
              isRateLimitedLoop ⟨none⟩ sc timestamp acc rest := by
            simp [isRateLimitedLoop, hm, hz, hnew]
          rw [hstep]
          obtain ⟨s1, s2, s3⟩ := ih hsubRest acc hacc
          exact ⟨s1, s2, fun hw => s3 (hrestWitness hw)⟩
    · have hstep : isRateLimitedLoop ⟨none⟩ sc timestamp acc (q0 :: rest) =
          isRateLimitedLoop ⟨none⟩ sc timestamp acc rest := by
        simp [isRateLimitedLoop, hm]
      rw [hstep]
      obtain ⟨s1, s2, s3⟩ := ih hsubRest acc hacc
      refine ⟨s1, s2, fun hw => s3 ?_⟩
      rcases hw with ⟨q1, hq1, hq1m, hq1z⟩
      rcases List.mem_cons.mp hq1 with hq1e | hq1r
      · rw [hq1e] at hq1m
        exact absurd hq1m hm
      · exact ⟨q1, hq1r, hq1m, hq1z⟩

/-- C2: when some quota of the list matches the item scoping and has limit
zero, is_rate_limited on a default limiter returns early with a limited
result: the Redis script is not invoked, no entry is sent to it, and the
result contains a rejection carrying the reason code of a matching
zero-limit quota with retry-after REJECT_ALL_SECS. -/
theorem claim_C2_zero_limit_short_circuit (quotas : List Quota) (sc : ItemScoping)
    (quantity : Nat) (overAcceptOnce : Bool) (timestamp : Nat) (rejections : List Bool)
    (q : Quota) (hq : q ∈ quotas) (hm : q.matches sc = true) (hz : q.limit = some 0) :
    (RedisRateLimiter.isRateLimited ⟨none⟩ quotas sc quantity overAcceptOnce timestamp
      rejections).scriptInvoked = false ∧
    (RedisRateLimiter.isRateLimited ⟨none⟩ quotas sc quantity overAcceptOnce timestamp
      rejections).scriptEntries = [] ∧
    (RedisRateLimiter.isRateLimited ⟨none⟩ quotas sc quantity overAcceptOnce timestamp
      rejections).rateLimits.isLimited = true ∧
    ∃ q0 ∈ quotas, q0.matches sc = true ∧ q0.limit = some 0 ∧
      ∃ rl ∈ (RedisRateLimiter.isRateLimited ⟨none⟩ quotas sc quantity overAcceptOnce
          timestamp rejections).rateLimits.entries,
        rl.reasonCode = q0.reasonCode ∧ rl.retryAfter = REJECT_ALL_SECS := by
  obtain ⟨s1, _, s3⟩ := isRateLimitedLoop_zero_invariant quotas sc timestamp quotas
    (fun _ h => h) (⟨[]⟩, []) (fun r hr => absurd hr (by simp))
  have hne : (isRateLimitedLoop ⟨none⟩ sc timestamp (⟨[]⟩, []) quotas).1.entries ≠ [] :=
    s3 ⟨q, hq, hm, hz⟩
  have hlim : (isRateLimitedLoop ⟨none⟩ sc timestamp (⟨[]⟩, []) quotas).1.isLimited
      = true := by
    unfold RateLimits.isLimited
    rw [List.any_eq_true]
    cases hE : (isRateLimitedLoop ⟨none⟩ sc timestamp (⟨[]⟩, []) quotas).1.entries with
    | nil => exact absurd hE hne
    | cons r rs =>
      obtain ⟨hra, _⟩ := s1 r (by rw [hE]; exact List.mem_cons_self _ _)
      refine ⟨r, List.mem_cons_self _ _, ?_⟩
      rw [hra]
      decide
  have hres : RedisRateLimiter.isRateLimited ⟨none⟩ quotas sc quantity overAcceptOnce
      timestamp rejections =
      ⟨(isRateLimitedLoop ⟨none⟩ sc timestamp (⟨[]⟩, []) quotas).1, false, []⟩ := by
    simp [RedisRateLimiter.isRateLimited, hlim]
  rw [hres]
  refine ⟨rfl, rfl, hlim, ?_⟩
  cases hE : (isRateLimitedLoop ⟨none⟩ sc timestamp (⟨[]⟩, []) quotas).1.entries with
  | nil => exact absurd hE hne
  | cons r rs =>
    obtain ⟨hra, q0, hq0, hq0m, hq0z, hq0rc⟩ :=
      s1 r (by rw [hE]; exact List.mem_cons_self _ _)
    exact ⟨q0, hq0, hq0m, hq0z, r, List.mem_cons_self _ _, hq0rc.symm, hra⟩

/-- Witness for C2 at the zero-size-quotas scenario of the source tests. -/
theorem claim_C2_zero_limit_short_circuit_witness :
    (RedisRateLimiter.isRateLimited ⟨none⟩ zeroTestQuotas zeroTestScoping 1 false 1000
      []).scriptInvoked = false ∧
    (RedisRateLimiter.isRateLimited ⟨none⟩ zeroTestQuotas zeroTestScoping 1 false 1000
      []).scriptEntries = [] ∧
    (RedisRateLimiter.isRateLimited ⟨none⟩ zeroTestQuotas zeroTestScoping 1 false 1000
      []).rateLimits.isLimited = true ∧
    ∃ q0 ∈ zeroTestQuotas, q0.matches zeroTestScoping = true ∧ q0.limit = some 0 ∧
      ∃ rl ∈ (RedisRateLimiter.isRateLimited ⟨none⟩ zeroTestQuotas zeroTestScoping 1
          false 1000 []).rateLimits.entries,
        rl.reasonCode = q0.reasonCode ∧ rl.retryAfter = REJECT_ALL_SECS :=
  claim_C2_zero_limit_short_circuit zeroTestQuotas zeroTestScoping 1 false 1000 []
    zeroQuota (by simp [zeroTestQuotas]) (by decide) rfl

/-- Counterexample for C3: on a fresh state that is both invalid and
disabled, check_request returns the invalid reason (ProjectState), while the
order stated by the claim, with the disabled check first, would return the
disabled reason (ProjectId). -/
theorem claim_C3_counterexample :
    checkRequestClaimed invalidDisabledState plainMeta witnessConfig =
      Except.error DiscardReason.projectId ∧
    ProjectState.checkRequest invalidDisabledState plainMeta witnessConfig 0 =
      Except.error DiscardReason.projectState ∧
    DiscardReason.projectId ≠ DiscardReason.projectState :=
  ⟨rfl, rfl, by decide⟩

/-- C3 amended: check_request returns the reason of the first failing check
in the order project id, origin, public key, invalid, disabled, where the
invalid and disabled checks are skipped on an expired state. -/
theorem claim_C3_check_order (st : ProjectState) (meta : RequestMeta) (config : Config)
    (now : Nat) :
    st.checkRequest meta config now =
    firstFailingCheck
      [(!(st.isValidProjectId meta.projectId config), DiscardReason.projectId),
       (!(st.isValidOrigin meta.origin), DiscardReason.cors),
       (!(st.isMatchingKey meta.publicKey), DiscardReason.projectId),
       (decide (st.checkExpiry config now ≠ Expiry.expired) && st.invalid,
        DiscardReason.projectState),
       (decide (st.checkExpiry config now ≠ Expiry.expired) && st.disabled,
        DiscardReason.projectId)] := by
  cases h1 : st.isValidProjectId meta.projectId config <;>
  cases h2 : st.isValidOrigin meta.origin <;>
  cases h3 : st.isMatchingKey meta.publicKey <;>
  cases h4 : st.invalid <;>
  cases h5 : st.disabled <;>
  cases h6 : st.checkExpiry config now <;>
  simp [ProjectState.checkRequest, ProjectState.checkDisabled, firstFailingCheck,
    h1, h2, h3, h4, h5, h6]

/-- Counterexample for C7: an envelope whose only item is a replay recording
is routed to the events topic by the source, while the claim, counting
replay recordings among the slow items, would route it to the attachments
topic. -/
theorem claim_C7_counterexample :
    selectTopicClaimed replayOnlyEnvelope = KafkaTopic.attachments ∧
    selectTopic replayOnlyEnvelope = KafkaTopic.events ∧
    KafkaTopic.attachments ≠ KafkaTopic.events :=
  ⟨rfl, rfl, by decide⟩

/-- C7 amended: the attachments topic is selected exactly when the envelope
contains an attachment or user report item (the slow items of the source);
otherwise the transactions topic exactly when the event item is a
transaction; otherwise the events topic. -/
theorem claim_C7_topic_selection (e : Envelope) :
    (selectTopic e = KafkaTopic.attachments ↔
      ∃ i ∈ e.items, i.ty = ItemType.attachment ∨ i.ty = ItemType.userReport) ∧
    (selectTopic e = KafkaTopic.transactions ↔
      (¬ ∃ i ∈ e.items, i.ty = ItemType.attachment ∨ i.ty = ItemType.userReport) ∧
      (e.items.find? eventItemPred).map Item.ty = some ItemType.transaction) ∧
    (selectTopic e = KafkaTopic.events ↔
      (¬ ∃ i ∈ e.items, i.ty = ItemType.attachment ∨ i.ty = ItemType.userReport) ∧
      ¬ (e.items.find? eventItemPred).map Item.ty = some ItemType.transaction) := by
  have hslow : ((e.items.find? isSlowItem).isSome = true) ↔
      ∃ i ∈ e.items, i.ty = ItemType.attachment ∨ i.ty = ItemType.userReport := by
    rw [List.find?_isSome]
    simp [isSlowItem]
  by_cases hs : (e.items.find? isSlowItem).isSome = true
  · have hex := hslow.mp hs
    simp [selectTopic, Envelope.getItemBy, hs, hex]
  · have hex := (not_congr hslow).mp hs
    by_cases ht : (e.items.find? eventItemPred).map Item.ty = some ItemType.transaction
    · simp [selectTopic, Envelope.getItemBy, hs, hex, ht]
    · simp [selectTopic, Envelope.getItemBy, hs, hex, ht]

/-- Counterexample for C8: 26 aggregate entries, each with all four
per-status counts positive, produce 104 session messages, more than 100. -/
theorem claim_C8_counterexample :
    (produceSessionsFromAggregate (List.replicate 26 fullAggregateItem)).length = 104 ∧
    ¬ (104 ≤ 100) := by
  constructor
  · rfl
  · decide

/-- Per-entry message bound: an aggregate entry explodes into at most four
messages. -/
theorem explodeAggregateItem_length_le (i : SessionAggregateItem) :
    (explodeAggregateItem i).length ≤ 4 := by
  unfold explodeAggregateItem
  split_ifs <;> simp

/-- Per-entry per-status bound: an aggregate entry yields at most one
message of any given status. -/
theorem explodeAggregateItem_countP_le (i : SessionAggregateItem) (s : SessionStatus) :
    (explodeAggregateItem i).countP (fun m => m.status == s) ≤ 1 := by
  cases s <;> unfold explodeAggregateItem <;> split_ifs <;>
    simp [List.countP_append, List.countP_cons]

/-- Counting over the exploded aggregate distributes as a sum over the
entries. -/
theorem countP_flatten_explode (p : SessionKafkaMessage → Bool)
    (l : List SessionAggregateItem) :
    ((l.map explodeAggregateItem).flatten.countP p) =
      (l.map (fun i => (explodeAggregateItem i).countP p)).sum := by
  induction l with
  | nil => simp
  | cons a t ih => simp [List.countP_append, ih]

/-- C8 amended: produce_sessions_from_aggregate explodes at most the first
MAX_EXPLODED_SESSIONS aggregate entries (entries beyond that bound are
dropped), each into at most one message per status, so it emits at most 100
messages of each status and at most 400 messages in total. -/
theorem claim_C8_session_aggregate_bounds (aggregates : List SessionAggregateItem) :
    (∀ s : SessionStatus,
      ((produceSessionsFromAggregate aggregates).filter
        (fun m => m.status == s)).length ≤ MAX_EXPLODED_SESSIONS) ∧
    (produceSessionsFromAggregate aggregates).length ≤ 4 * MAX_EXPLODED_SESSIONS ∧
    produceSessionsFromAggregate aggregates =
      produceSessionsFromAggregate (aggregates.take MAX_EXPLODED_SESSIONS) := by
  refine ⟨?_, ?_, ?_⟩
  · intro s
    rw [← List.countP_eq_length_filter]
    unfold produceSessionsFromAggregate
    rw [countP_flatten_explode]
    have hb : ∀ x ∈ (aggregates.take MAX_EXPLODED_SESSIONS).map
        (fun i => (explodeAggregateItem i).countP (fun m => m.status == s)), x ≤ 1 := by
      intro x hx
      rw [List.mem_map] at hx
      obtain ⟨i, _, rfl⟩ := hx
      exact explodeAggregateItem_countP_le i s
    have hsum := List.sum_le_card_nsmul _ 1 hb
    rw [smul_eq_mul, mul_one, List.length_map] at hsum
    exact hsum.trans (List.length_take_le _ _)
  · unfold produceSessionsFromAggregate
    rw [List.length_flatten, List.map_map]
    have hb : ∀ x ∈ (aggregates.take MAX_EXPLODED_SESSIONS).map
        (List.length ∘ explodeAggregateItem), x ≤ 4 := by
      intro x hx
      rw [List.mem_map] at hx
      obtain ⟨i, _, rfl⟩ := hx
      exact explodeAggregateItem_length_le i
    have hsum := List.sum_le_card_nsmul _ 4 hb
    rw [smul_eq_mul, List.length_map] at hsum
    refine hsum.trans ?_
    have := List.length_take_le MAX_EXPLODED_SESSIONS aggregates
    calc (aggregates.take MAX_EXPLODED_SESSIONS).length * 4
        ≤ MAX_EXPLODED_SESSIONS * 4 := Nat.mul_le_mul_right 4 this
      _ = 4 * MAX_EXPLODED_SESSIONS := Nat.mul_comm _ _
  · unfold produceSessionsFromAggregate
    rw [List.take_take]
    simp

/-- Invariant of the chunking loop: with a positive chunk bound and fuel
covering the remaining bytes, the emitted chunk indices are consecutive from
the start index, the chunk payloads concatenate to the remaining payload,
every chunk respects the bound, and the final index is the start index plus
the number of messages. -/
theorem chunkLoop_spec (maxChunkSize : Nat) (payload : List Nat)
    (hpos : 0 < maxChunkSize) :
    ∀ fuel offset chunkIndex, payload.length - offset ≤ fuel →
      ((chunkLoop maxChunkSize payload fuel offset chunkIndex).1.map
          ChunkMessage.chunkIndex =
        List.range' chunkIndex
          (chunkLoop maxChunkSize payload fuel offset chunkIndex).1.length) ∧
      (((chunkLoop maxChunkSize payload fuel offset chunkIndex).1.map
          ChunkMessage.payloadChunk).flatten = payload.drop offset) ∧
      (∀ m ∈ (chunkLoop maxChunkSize payload fuel offset chunkIndex).1,
        m.payloadChunk.length ≤ maxChunkSize) ∧
      ((chunkLoop maxChunkSize payload fuel offset chunkIndex).2 =
        chunkIndex + (chunkLoop maxChunkSize payload fuel offset chunkIndex).1.length) := by
  intro fuel
  induction fuel with
  | zero =>
    intro offset chunkIndex hfuel
    have hoff : payload.length ≤ offset := Nat.sub_eq_zero_iff_le.mp (Nat.le_zero.mp hfuel)
    refine ⟨?_, ?_, ?_, ?_⟩ <;> simp [chunkLoop, List.drop_eq_nil_of_le hoff]
  | succ fuel ih =>
    intro offset chunkIndex hfuel
    by_cases hlt : offset < payload.length
    · have hcspos : 0 < min maxChunkSize (payload.length - offset) :=
        lt_min hpos (Nat.sub_pos_of_lt hlt)
      have hcsle : min maxChunkSize (payload.length - offset) ≤ payload.length - offset :=
        min_le_right _ _
      have hfuel2 :
          payload.length - (offset + min maxChunkSize (payload.length - offset)) ≤ fuel := by
        omega
      obtain ⟨ih1, ih2, ih3, ih4⟩ :=
        ih (offset + min maxChunkSize (payload.length - offset)) (chunkIndex + 1) hfuel2
      have hstep : chunkLoop maxChunkSize payload (fuel + 1) offset chunkIndex =
          (⟨chunkIndex,
            (payload.take (offset + min maxChunkSize (payload.length - offset))).drop
              offset⟩ ::
            (chunkLoop maxChunkSize payload fuel
              (offset + min maxChunkSize (payload.length - offset)) (chunkIndex + 1)).1,
           (chunkLoop maxChunkSize payload fuel
              (offset + min maxChunkSize (payload.length - offset)) (chunkIndex + 1)).2) := by
        rw [chunkLoop]
        simp [hlt]
      have hslice :
          (payload.take (offset + min maxChunkSize (payload.length - offset))).drop offset =
          (payload.drop offset).take (min maxChunkSize (payload.length - offset)) := by
        rw [List.drop_take]
        congr 1
        omega
      rw [hstep]
      refine ⟨?_, ?_, ?_, ?_⟩
      · simp only [List.map_cons, List.length_cons, ih1]
        rw [List.range'_succ]
      · simp only [List.map_cons, List.flatten_cons, ih2, hslice]
        exact List.drop_take_append_drop payload offset _
      · intro m hm
        rcases List.mem_cons.mp hm with rfl | hm2
        · rw [hslice]
          simp only [List.length_take]
          exact le_trans (min_le_left _ _) (min_le_left _ _)
        · exact ih3 m hm2
      · simp only [List.length_cons, ih4]
        omega
    · have hoff : payload.length ≤ offset := Nat.le_of_not_lt hlt
      refine ⟨?_, ?_, ?_, ?_⟩ <;> simp [chunkLoop, hlt, List.drop_eq_nil_of_le hoff]

/-- Counterexample for C6: with the attachment chunk size configured to 1
byte, a two byte replay recording still produces a single chunk of 2 bytes,
because produce_replay_recording_chunks uses its own fixed chunk bound
rather than the configured attachment chunk size. -/
theorem claim_C6_counterexample :
    chunkLengths (produceReplayRecordingChunks replayItemTwoBytes).1 = [2] ∧
    ¬ (2 ≤ 1) := by
  constructor
  · rfl
  · decide

/-- C6 amended: for both produce_attachment_chunks and
produce_replay_recording_chunks the chunk messages carry indices 0..N-1
whose payloads concatenate, in index order, to the original payload byte for
byte; the summary chunks field equals N and its size field equals the
payload length. Attachment chunks respect the configured attachment chunk
size, while replay recording chunks respect the fixed replay chunk bound
REPLAY_MAX_CHUNK_SIZE instead of the configured attachment chunk size. -/
theorem claim_C6_chunking_round_trip (attachmentChunkSize : Nat)
    (hpos : 0 < attachmentChunkSize) (item itemR : Item) :
    ((produceAttachmentChunks attachmentChunkSize item).1.map ChunkMessage.chunkIndex =
      List.range (produceAttachmentChunks attachmentChunkSize item).1.length) ∧
    (((produceAttachmentChunks attachmentChunkSize item).1.map
        ChunkMessage.payloadChunk).flatten = item.payload) ∧
    (∀ m ∈ (produceAttachmentChunks attachmentChunkSize item).1,
      m.payloadChunk.length ≤ attachmentChunkSize) ∧
    ((produceAttachmentChunks attachmentChunkSize item).2.chunks =
      (produceAttachmentChunks attachmentChunkSize item).1.length) ∧
    ((produceAttachmentChunks attachmentChunkSize item).2.size =
      some item.payload.length) ∧
    ((produceReplayRecordingChunks itemR).1.map ChunkMessage.chunkIndex =
      List.range (produceReplayRecordingChunks itemR).1.length) ∧
    (((produceReplayRecordingChunks itemR).1.map ChunkMessage.payloadChunk).flatten =
      itemR.payload) ∧
    (∀ m ∈ (produceReplayRecordingChunks itemR).1,
      m.payloadChunk.length ≤ REPLAY_MAX_CHUNK_SIZE) ∧
    ((produceReplayRecordingChunks itemR).2.chunks =
      (produceReplayRecordingChunks itemR).1.length) ∧
    ((produceReplayRecordingChunks itemR).2.size = some itemR.payload.length) := by
  obtain ⟨a1, a2, a3, a4⟩ := chunkLoop_spec attachmentChunkSize item.payload hpos
    item.payload.length 0 0 (by omega)
  obtain ⟨b1, b2, b3, b4⟩ := chunkLoop_spec REPLAY_MAX_CHUNK_SIZE itemR.payload
    (by decide) itemR.payload.length 0 0 (by omega)
  refine ⟨?_, ?_, ?_, ?_, ?_, ?_, ?_, ?_, ?_, ?_⟩
  · rw [List.range_eq_range']
    exact a1
  · simpa using a2
  · exact a3
  · simpa using a4
  · rfl
  · rw [List.range_eq_range']
    exact b1
  · simpa using b2
  · exact b3
  · simpa using b4
  · rfl

/-- Witness for the amended C6: a seven byte attachment chunked at 3 bytes
and a two byte replay recording. -/
theorem claim_C6_chunking_round_trip_witness :
    (0 < 3) ∧
    (((produceAttachmentChunks 3 attachmentItemSeven).1.map ChunkMessage.chunkIndex =
      List.range (produceAttachmentChunks 3 attachmentItemSeven).1.length) ∧
    (((produceAttachmentChunks 3 attachmentItemSeven).1.map
        ChunkMessage.payloadChunk).flatten = attachmentItemSeven.payload) ∧
    (∀ m ∈ (produceAttachmentChunks 3 attachmentItemSeven).1,
      m.payloadChunk.length ≤ 3) ∧
    ((produceAttachmentChunks 3 attachmentItemSeven).2.chunks =
      (produceAttachmentChunks 3 attachmentItemSeven).1.length) ∧
    ((produceAttachmentChunks 3 attachmentItemSeven).2.size =
      some attachmentItemSeven.payload.length) ∧
    ((produceReplayRecordingChunks replayItemTwoBytes).1.map ChunkMessage.chunkIndex =
      List.range (produceReplayRecordingChunks replayItemTwoBytes).1.length) ∧
    (((produceReplayRecordingChunks replayItemTwoBytes).1.map
        ChunkMessage.payloadChunk).flatten = replayItemTwoBytes.payload) ∧
    (∀ m ∈ (produceReplayRecordingChunks replayItemTwoBytes).1,
      m.payloadChunk.length ≤ REPLAY_MAX_CHUNK_SIZE) ∧
    ((produceReplayRecordingChunks replayItemTwoBytes).2.chunks =
      (produceReplayRecordingChunks replayItemTwoBytes).1.length) ∧
    ((produceReplayRecordingChunks replayItemTwoBytes).2.size =
      some replayItemTwoBytes.payload.length)) :=
  ⟨by decide,
   claim_C6_chunking_round_trip 3 (by decide) attachmentItemSeven replayItemTwoBytes⟩

/-- Witness for C10 at concrete empty items. -/
theorem claim_C10_empty_payload_witness :
    (produceAttachmentChunks 5 emptyAttachmentItem).1 = [] ∧
    (produceAttachmentChunks 5 emptyAttachmentItem).2.chunks = 0 ∧
    (produceAttachmentChunks 5 emptyAttachmentItem).2.size = some 0 ∧
    (produceReplayRecordingChunks emptyReplayItem).1 = [] ∧
    (produceReplayRecordingChunks emptyReplayItem).2.chunks = 0 ∧
    (produceReplayRecordingChunks emptyReplayItem).2.size = some 0 :=
  claim_C10_empty_payload 5 emptyAttachmentItem emptyReplayItem rfl rfl

end Relay
